import Mathlib

/-!
Verification of the Google-Sheets-to-YAML sync pipeline (`scripts/sync-data.js`).

This file gives a shallow embedding of the data-sync pipeline: the JSON value
model, `normalizeData`, `normalizeBoolean`, `validateData`, `fetchSheetData`
(its falsy-body substitution), `syncSheet`, the `main` preflight and summary
logic, and `writeYamlFile` over a small association-list filesystem model.
Network and disk outcomes, which the script observes through exceptions, are
passed in explicitly as `Except` values or as filesystem states.

JavaScript specifics captured by the model:
* JS `typeof` classifies `null` and arrays as `'object'`;
* JS truthiness: `null`, `undefined`, `false`, `0` and `""` are falsy;
* `String.prototype.trim` is modelled by `jsTrim` (whitespace stripped from
  both ends, via `List.dropWhile` / `List.rdropWhile` over the characters);
* JS numbers are represented by `Int`: no claim below computes with numeric
  values, they only pass through the pipeline unchanged.
-/

namespace SyncData

/-- Whitespace test used by the model of `String.prototype.trim`. -/
def jsWhitespace (c : Char) : Bool := c.isWhitespace

/-- Characters of a string after stripping leading and trailing whitespace:
the model of JavaScript `value.trim()` (source line 92). -/
def trimChars (l : List Char) : List Char :=
  List.rdropWhile jsWhitespace (l.dropWhile jsWhitespace)

/-- Model of JavaScript `String.prototype.trim`. -/
def jsTrim (s : String) : String := String.mk (trimChars s.data)

mutual

/-- A JavaScript value as the pipeline sees one: JSON scalars, arrays and
mappings, plus `undefined` (tested for at source line 85).  Numbers are
represented by `Int`; no claim computes with them. -/
inductive Json : Type where
  | null : Json
  | undefined : Json
  | bool : Bool → Json
  | num : Int → Json
  | str : String → Json
  | arr : JsonArr → Json
  | obj : JsonObj → Json

/-- A JavaScript array of `Json` values. -/
inductive JsonArr : Type where
  | nil : JsonArr
  | cons : Json → JsonArr → JsonArr

/-- The entries of a JavaScript object, in `Object.entries` order. -/
inductive JsonObj : Type where
  | nil : JsonObj
  | cons : String → Json → JsonObj → JsonObj

end

/-- The elements of a `JsonArr` as a Lean list. -/
def JsonArr.toList : JsonArr → List Json
  | .nil => []
  | .cons x rest => x :: rest.toList

/-- The entries of a `JsonObj` as a Lean list of key/value pairs. -/
def JsonObj.toPairs : JsonObj → List (String × Json)
  | .nil => []
  | .cons k v rest => (k, v) :: rest.toPairs

/-- JS `data.length` for an array value. -/
def arrLength (xs : JsonArr) : Nat := xs.toList.length

/-- JS truthiness test, negated form of `!data` (source line 191).
`null`, `undefined`, `false`, `0` and `""` are falsy. -/
def jsFalsy : Json → Bool
  | .null => true
  | .undefined => true
  | .bool b => !b
  | .num n => n == 0
  | .str s => s == ""
  | _ => false

/-- `Array.isArray(data)`. -/
def isArrayJ : Json → Bool
  | .arr _ => true
  | _ => false

/-- `Array.isArray(data) && data.length === 0` (source line 191). -/
def isEmptyArrayJ : Json → Bool
  | .arr xs => arrLength xs == 0
  | _ => false

/-- Whether a value is a mapping object (what the spec calls a record). -/
def isMapping : Json → Bool
  | .obj _ => true
  | _ => false

/-- `value === null || value === undefined || value === ''`
(source line 85, first branch of the per-value dispatch). -/
def isEmptyish : Json → Bool
  | .null => true
  | .undefined => true
  | .str s => s == ""
  | _ => false

/-- `typeof value === 'string'` (source line 91, second branch). -/
def jsTypeofString : Json → Bool
  | .str _ => true
  | _ => false

/-- `typeof value === 'object'`: true for mappings, arrays and `null`
(source lines 80 and 103). -/
def jsTypeofObject : Json → Bool
  | .obj _ => true
  | .arr _ => true
  | .null => true
  | _ => false

/-- The boolean-vocabulary test of source lines 95-99:
`value.toLowerCase()` is one of `true`, `false`, `yes`, `no`. -/
def isBooleanLikeString : Json → Bool
  | .str s =>
      s.toLower == "true" || s.toLower == "false" ||
      s.toLower == "yes" || s.toLower == "no"
  | _ => false

/-- Embeds `normalizeBoolean` (source lines 64-70): booleans pass through,
non-strings map to `false`, strings are lowercased, trimmed and compared
against the truthy vocabulary. -/
def normalizeBoolean : Json → Bool
  | .bool b => b
  | .str s =>
      let normalized := jsTrim s.toLower
      normalized == "true" || normalized == "yes" || normalized == "1"
  | _ => false

/-- Which branch of the per-value dispatch of `normalizeData`
(source lines 83-109) fires, in the exact textual order of the `if` /
`else if` chain.  `boolStringBranch` is the branch at lines 95-101. -/
inductive NormBranch : Type where
  | emptyBranch : NormBranch
  | stringBranch : NormBranch
  | boolStringBranch : NormBranch
  | objectBranch : NormBranch
  | otherBranch : NormBranch
  deriving DecidableEq

/-- The per-value dispatch chain of `normalizeData`, branch conditions and
order taken verbatim from source lines 85, 91, 95-99, 103. -/
def dispatchBranch (v : Json) : NormBranch :=
  if isEmptyish v then .emptyBranch
  else if jsTypeofString v then .stringBranch
  else if jsTypeofString v && isBooleanLikeString v then .boolStringBranch
  else if jsTypeofObject v then .objectBranch
  else .otherBranch

mutual

/-- Embeds `normalizeData` (source lines 75-116).  Arrays map `normalizeData`
over their elements (line 77); mapping objects rebuild each entry through the
per-value dispatch (`normalizeValue`); every other value — including `null`,
whose `typeof` is `'object'` but which fails the `data !== null` guard at
line 80 — is returned unchanged (line 115). -/
def normalizeData : Json → Json
  | .arr xs => .arr (normalizeArr xs)
  | .obj fs => .obj (normalizeObj fs)
  | .null => .null
  | .undefined => .undefined
  | .bool b => .bool b
  | .num n => .num n
  | .str s => .str s

/-- The `data.map(item => normalizeData(item))` of source line 77. -/
def normalizeArr : JsonArr → JsonArr
  | .nil => .nil
  | .cons x rest => .cons (normalizeData x) (normalizeArr rest)

/-- The `for (const [key, value] of Object.entries(data))` loop of source
lines 83-110: each entry keeps its key and sends its value through the
per-value dispatch. -/
def normalizeObj : JsonObj → JsonObj
  | .nil => .nil
  | .cons k v rest => .cons k (normalizeValue v) (normalizeObj rest)

/-- The per-value dispatch inside the entries loop (source lines 85-109):
`null`/`undefined`/`''` become `''` (line 86); other strings are trimmed
(line 92); objects and arrays recurse into `normalizeData` (line 104) —
here that call is unfolded one step, since `normalizeData` on an array or
mapping immediately dispatches to the corresponding branch; all other
values pass through unchanged (line 108).  The boolean-looking-string
branch of lines 95-101 does not appear because it is dead code: the
`typeof value === 'string'` test at line 91 precedes it and captures every
string; theorem `boolString_branch_dead_aux` below proves this from
`dispatchBranch`, the verbatim embedding of the chain. -/
def normalizeValue : Json → Json
  | .null => .str ""
  | .undefined => .str ""
  | .str s => if s = "" then .str "" else .str (jsTrim s)
  | .arr xs => .arr (normalizeArr xs)
  | .obj fs => .obj (normalizeObj fs)
  | .bool b => .bool b
  | .num n => .num n

end

/-- The filter predicate of source line 132:
`typeof item !== 'object' || item === null`.  Note JS `typeof` calls arrays
`'object'`, so array elements pass this check. -/
def isInvalidItem : Json → Bool
  | .null => true
  | .obj _ => false
  | .arr _ => false
  | _ => true

/-- Embeds `validateData` (source lines 121-138).  Errors carry the exact
message string the script would put in the thrown `Error`; the spec
classifies both as `ShapeError`. -/
def validateData (sheetName : String) (data : Json) : Except String Bool :=
  match data with
  | .arr xs =>
      if arrLength xs = 0 then .ok true
      else
        let invalidCount := (xs.toList.filter isInvalidItem).length
        if invalidCount > 0 then
          .error (sheetName ++ " contains " ++ toString invalidCount ++ " invalid items")
        else .ok true
  | _ => .error ("Data for " ++ sheetName ++ " is not an array")

/-- The two flags of `config.options` (source lines 154 and 220).  An absent
`options` object or flag reads as `undefined`, which is falsy, so absence is
modelled by `false`. -/
structure Options : Type where
  backupBeforeSync : Bool
  validateData : Bool
  deriving DecidableEq

/-- One entry of `config.sheets` (see `scripts/sheets-config.json` and the
quick-start guide). -/
structure SheetConfig : Type where
  jsonUrl : String
  outputPath : String
  description : String
  deriving DecidableEq

/-- The record returned by `syncSheet` (source lines 227-234).  A failed sync
carries no count in the script; the model fixes it at `0`, which is also what
the summary adds for a failed source. -/
structure SyncResult : Type where
  success : Bool
  count : Nat
  error : Option String
  deriving DecidableEq

/-- The `count` expression of source line 229:
`Array.isArray(normalizedData) ? normalizedData.length : 1`. -/
def recordCount (data : Json) : Nat :=
  match data with
  | .arr xs => arrLength xs
  | _ => 1

/-- The externally observed outcomes of one source's side-effecting stages:
what `fetchJson(sheetConfig.jsonUrl)` resolved to (or rejected with), and
whether the filesystem accepted the YAML write.  The script only observes
these through promise rejection / thrown exceptions, so they enter the model
as `Except` values. -/
structure SourceRun : Type where
  fetchResult : Except String Json
  writeResult : Except String Unit

/-- Embeds `fetchSheetData` (source lines 185-203) downstream of the network
call: a falsy body or an empty array is replaced by `[]` (line 191-194),
anything else is returned as fetched; a rejected fetch re-throws. -/
def fetchSheetData (fetchResult : Except String Json) : Except String Json :=
  match fetchResult with
  | .error e => .error e
  | .ok data =>
      if jsFalsy data || isEmptyArrayJ data then .ok (Json.arr JsonArr.nil)
      else .ok data

/-- Embeds `syncSheet` (source lines 208-236): fetch, normalize, validate
only when `config.options?.validateData` is set (line 220), then write; the
surrounding `try`/`catch` turns the first failing stage into
`{ success: false, error }` (line 234). -/
def syncSheet (opts : Options) (sheetName : String) (run : SourceRun) : SyncResult :=
  match fetchSheetData run.fetchResult with
  | .error e => { success := false, count := 0, error := some e }
  | .ok rawData =>
      let normalizedData := normalizeData rawData
      match (if opts.validateData then validateData sheetName normalizedData
             else Except.ok true) with
      | .error e => { success := false, count := 0, error := some e }
      | .ok _ =>
          match run.writeResult with
          | .error e => { success := false, count := 0, error := some e }
          | .ok _ =>
              { success := true, count := recordCount normalizedData, error := none }

/-- The per-source loop of `main` (source lines 268-271): every configured
source is synced in order, no failure aborts the loop. -/
def runAllSheets (opts : Options) (runs : List (String × SourceRun)) :
    List (String × SyncResult) :=
  match runs with
  | [] => []
  | (n, r) :: rest => (n, syncSheet opts n r) :: runAllSheets opts rest

/-- The `totalFailed` counter of the summary loop (source lines 281-290). -/
def totalFailed (results : List (String × SyncResult)) : Nat :=
  (results.filter (fun p => !p.2.success)).length

/-- The exit decision of source lines 296-301: exit 1 if any sync failed,
exit 0 otherwise. -/
def mainExitCode (results : List (String × SyncResult)) : Nat :=
  if totalFailed results > 0 then 1 else 0

/-- JS `haystack.includes(needle)` over the characters. -/
def charsInclude (needle : List Char) : List Char → Bool
  | [] => needle.isEmpty
  | c :: rest => List.isPrefixOf needle (c :: rest) || charsInclude needle rest

/-- JS `String.prototype.includes`. -/
def strIncludes (haystack needle : String) : Bool :=
  charsInclude needle.data haystack.data

/-- The `sheetsToSync` expression of source lines 248-250.  With a truthy
`targetSheet` the script builds `{ [targetSheet]: config.sheets[targetSheet] }`
— a one-key object whose value is `undefined` when the name is unknown, which
the model renders as a singleton list with an `Option` payload. -/
def resolveSheets (sheets : List (String × SheetConfig)) :
    Option String → List (String × Option SheetConfig)
  | some t => [(t, (sheets.find? (fun p => p.1 = t)).map (fun p => p.2))]
  | none => sheets.map (fun p => (p.1, some p.2))

/-- How the pre-fetch part of `main` (source lines 245-265) ends. -/
inductive PreflightOutcome : Type where
  /-- The `Sheet "..." not found in config` branch at lines 252-256
  (`process.exit(1)`). -/
  | sheetNotFoundExit : PreflightOutcome
  /-- The URL-validation loop at line 260 dereferences
  `sheetConfig.jsonUrl` on an `undefined` entry: an uncaught `TypeError`,
  caught only by the top-level handler at lines 305-308 (exit 1). -/
  | typeErrorCrash (sheetName : String) : PreflightOutcome
  /-- The `JSON URL not configured` branch at lines 260-264
  (`process.exit(1)`). -/
  | urlNotConfiguredExit (sheetName : String) : PreflightOutcome
  /-- Preflight passed; these sources proceed to the sync loop. -/
  | proceed (toSync : List (String × SheetConfig)) : PreflightOutcome
  deriving DecidableEq

/-- The URL-validation loop of source lines 259-265, including the implicit
crash on an `undefined` sheet config. -/
def checkUrlsLoop : List (String × Option SheetConfig) → Option PreflightOutcome
  | [] => none
  | (n, none) :: _ => some (.typeErrorCrash n)
  | (n, some c) :: rest =>
      if c.jsonUrl = "" || strIncludes c.jsonUrl "YOUR_" then
        some (.urlNotConfiguredExit n)
      else checkUrlsLoop rest

/-- Embeds the pre-fetch part of `main` (source lines 245-265).  `target`
models `process.argv[2]`; an empty string is falsy in JS, so it selects all
sheets exactly like an absent argument. -/
def mainPreflight (sheets : List (String × SheetConfig)) (target : Option String) :
    PreflightOutcome :=
  let truthyTarget : Option String :=
    match target with
    | some t => if t = "" then none else some t
    | none => none
  let toSync := resolveSheets sheets truthyTarget
  if toSync.length = 0 then .sheetNotFoundExit
  else
    match checkUrlsLoop toSync with
    | some bad => bad
    | none => .proceed (toSync.filterMap (fun p => p.2.map (fun c => (p.1, c))))

/-- A flat filesystem: an association list from path to file content, newest
entry first. -/
structure FS : Type where
  files : List (String × String)
  deriving DecidableEq

/-- First-match lookup in the association list. -/
def lookupFile : List (String × String) → String → Option String
  | [], _ => none
  | (k, v) :: rest, p => if k = p then some v else lookupFile rest p

/-- Content of the file at `path`, if one exists. -/
def FS.readFile (fs : FS) (path : String) : Option String :=
  lookupFile fs.files path

/-- `fs.existsSync(path)`. -/
def FS.existsFile (fs : FS) (path : String) : Bool :=
  (fs.readFile path).isSome

/-- `fs.writeFileSync(path, content)`: full overwrite. -/
def FS.writeFile (fs : FS) (path content : String) : FS :=
  ⟨(path, content) :: fs.files⟩

/-- `fs.copyFileSync(src, dst)`.  The script only calls it under an
`existsSync(src)` guard; a missing source is a no-op here. -/
def FS.copyFile (fs : FS) (src dst : String) : FS :=
  match fs.readFile src with
  | some content => fs.writeFile dst content
  | none => fs

mutual

/-- Modelled from the spec: `YAML.stringify` is provided by the external
`yaml` library (source lines 161-169 only choose its formatting options:
2-space indent, no line wrapping, double-quoted strings, plain keys).  The
claims below treat the serialized text as opaque content, so this simple
executable printer stands in for the library. -/
def yamlStringify : Json → String
  | .null => "null"
  | .undefined => "null"
  | .bool b => if b then "true" else "false"
  | .num n => toString n
  | .str s => "\"" ++ s ++ "\""
  | .arr xs => yamlStringifyArr xs
  | .obj fs => yamlStringifyObj fs

/-- Modelled from the spec: sequence layout of the stand-in serializer. -/
def yamlStringifyArr : JsonArr → String
  | .nil => "[]\n"
  | .cons x rest => "- " ++ yamlStringify x ++ "\n" ++ yamlStringifyArr rest

/-- Modelled from the spec: mapping layout of the stand-in serializer. -/
def yamlStringifyObj : JsonObj → String
  | .nil => "\n"
  | .cons k v rest => k ++ ": " ++ yamlStringify v ++ "\n" ++ yamlStringifyObj rest

end

/-- Embeds `writeYamlFile` (source lines 143-180) over the `FS` model: when a
file already exists at the output path and `backupBeforeSync` is set (line
154), the existing file is first copied to `<path>.backup` (lines 155-156);
then the serialized YAML is written over `<path>` (line 172).  Directory
creation (lines 149-151) has no observable effect in the flat model, and the
`path.join(process.cwd(), ...)` resolution is the identity here. -/
def writeYamlFile (backupBeforeSync : Bool) (fs : FS) (data : Json)
    (outputPath : String) : FS :=
  let fs1 :=
    if fs.existsFile outputPath && backupBeforeSync then
      fs.copyFile outputPath (outputPath ++ ".backup")
    else fs
  fs1.writeFile outputPath (yamlStringify data)

mutual

/-- No `null` or `undefined` occurs anywhere in the value: the first half of
the spec's `NormalizedRecord` invariant. -/
def noNils : Json → Bool
  | .null => false
  | .undefined => false
  | .arr xs => noNilsArr xs
  | .obj fs => noNilsObj fs
  | _ => true

/-- `noNils` on every array element. -/
def noNilsArr : JsonArr → Bool
  | .nil => true
  | .cons x rest => noNils x && noNilsArr rest

/-- `noNils` on every entry value. -/
def noNilsObj : JsonObj → Bool
  | .nil => true
  | .cons _ v rest => noNils v && noNilsObj rest

end

mutual

/-- Every string value occurring in the value has no leading or trailing
whitespace: the second half of the spec's `NormalizedRecord` invariant.
(Keys are not inspected: the script never rewrites keys.) -/
def allTrimmed : Json → Bool
  | .str s => jsTrim s == s
  | .arr xs => allTrimmedArr xs
  | .obj fs => allTrimmedObj fs
  | _ => true

/-- `allTrimmed` on every array element. -/
def allTrimmedArr : JsonArr → Bool
  | .nil => true
  | .cons x rest => allTrimmed x && allTrimmedArr rest

/-- `allTrimmed` on every entry value. -/
def allTrimmedObj : JsonObj → Bool
  | .nil => true
  | .cons _ v rest => allTrimmed v && allTrimmedObj rest

end

/-- What actually holds of a single mapping-entry value after normalization:
not `null`, not `undefined`, and trimmed if a string. -/
def fieldClean : Json → Bool
  | .null => false
  | .undefined => false
  | .str s => jsTrim s == s
  | _ => true

mutual

/-- The amended invariant: every mapping occurring anywhere in the value has
only `fieldClean` entry values.  (Values outside mapping entries — top-level
scalars and direct array elements — are not constrained, because
`normalizeData` passes them through unchanged.) -/
def objFieldsClean : Json → Bool
  | .arr xs => objFieldsCleanArr xs
  | .obj fs => objFieldsCleanObj fs
  | _ => true

/-- `objFieldsClean` on every array element. -/
def objFieldsCleanArr : JsonArr → Bool
  | .nil => true
  | .cons x rest => objFieldsClean x && objFieldsCleanArr rest

/-- `objFieldsClean` on every entry value, and each entry value is
`fieldClean`. -/
def objFieldsCleanObj : JsonObj → Bool
  | .nil => true
  | .cons _ v rest => fieldClean v && objFieldsClean v && objFieldsCleanObj rest

end

/-! Helper lemmas -/

/-- Stripping trailing whitespace cannot create leading whitespace:
`trimChars` output still has no leading whitespace character. -/
theorem dropWhile_trimChars (l : List Char) :
    (trimChars l).dropWhile jsWhitespace = trimChars l := by
  unfold trimChars
  rw [List.dropWhile_eq_self_iff]
  intro hl
  obtain ⟨r, hr⟩ := List.rdropWhile_prefix jsWhitespace (l.dropWhile jsWhitespace)
  have hlt : 0 < (l.dropWhile jsWhitespace).length := by
    rw [← hr, List.length_append]
    exact Nat.lt_of_lt_of_le hl (Nat.le_add_right _ _)
  have hget := List.dropWhile_get_zero_not jsWhitespace l hlt
  have h0 : (List.rdropWhile jsWhitespace (l.dropWhile jsWhitespace) ++ r).get? 0 =
      (List.rdropWhile jsWhitespace (l.dropWhile jsWhitespace)).get? 0 :=
    List.get?_append hl
  rw [hr] at h0
  rw [List.get?_eq_get hlt, List.get?_eq_get hl] at h0
  rw [← Option.some.inj h0]
  exact hget

/-- `trimChars` is idempotent. -/
theorem trimChars_idem (l : List Char) : trimChars (trimChars l) = trimChars l := by
  have h1 : trimChars (trimChars l) =
      List.rdropWhile jsWhitespace ((trimChars l).dropWhile jsWhitespace) := rfl
  rw [h1, dropWhile_trimChars]
  unfold trimChars
  exact List.rdropWhile_idempotent jsWhitespace _

/-- The model of JS `trim` is idempotent. -/
theorem jsTrim_idem (s : String) : jsTrim (jsTrim s) = jsTrim s :=
  congrArg String.mk (trimChars_idem s.data)

/-- Trimming the empty string gives the empty string. -/
theorem jsTrim_empty : jsTrim "" = "" := rfl

/-- A trimmed string passes the trimmed-ness test. -/
theorem jsTrim_beq (s : String) : (jsTrim (jsTrim s) == jsTrim s) = true := by
  rw [jsTrim_idem]
  exact beq_self_eq_true (jsTrim s)

/-- The per-value dispatch on a non-empty string fires the generic string
branch: the value comes back trimmed. -/
theorem normalizeValue_str (s : String) (h : s ≠ "") :
    normalizeValue (Json.str s) = Json.str (jsTrim s) := by
  simp [normalizeValue, h]

/-- The boolean-looking-string branch of the dispatch chain (source lines
95-101) never fires: the `typeof value === 'string'` test at line 91
precedes it and captures every string. -/
theorem boolString_branch_dead_aux (v : Json) :
    dispatchBranch v ≠ NormBranch.boolStringBranch := by
  unfold dispatchBranch
  cases v <;> simp [isEmptyish, jsTypeofString, jsTypeofObject] <;>
    split <;> simp

mutual

/-- `normalizeValue` output satisfies the per-entry invariant. -/
theorem normalizeValue_fieldClean : ∀ v, fieldClean (normalizeValue v) = true
  | .null => rfl
  | .undefined => rfl
  | .bool _ => rfl
  | .num _ => rfl
  | .arr _ => rfl
  | .obj _ => rfl
  | .str s => by
      by_cases h : s = ""
      · simp [normalizeValue, h, fieldClean, jsTrim_empty]
      · simp [normalizeValue, h, fieldClean, jsTrim_beq, jsTrim_idem]

/-- `normalizeData` output has clean mapping entries everywhere. -/
theorem normalizeData_clean : ∀ x, objFieldsClean (normalizeData x) = true
  | .null => rfl
  | .undefined => rfl
  | .bool _ => rfl
  | .num _ => rfl
  | .str _ => rfl
  | .arr xs => by
      simp [normalizeData, objFieldsClean]
      exact normalizeArr_clean xs
  | .obj fs => by
      simp [normalizeData, objFieldsClean]
      exact normalizeObj_clean fs

/-- Elementwise version of `normalizeData_clean` for arrays. -/
theorem normalizeArr_clean : ∀ xs, objFieldsCleanArr (normalizeArr xs) = true
  | .nil => rfl
  | .cons x rest => by
      simp [normalizeArr, objFieldsCleanArr]
      exact ⟨normalizeData_clean x, normalizeArr_clean rest⟩

/-- Entrywise version of `normalizeData_clean` for mappings. -/
theorem normalizeObj_clean : ∀ fs, objFieldsCleanObj (normalizeObj fs) = true
  | .nil => rfl
  | .cons _ v rest => by
      simp [normalizeObj, objFieldsCleanObj, normalizeValue_fieldClean v,
        normalizeValue_clean v, normalizeObj_clean rest]

/-- `normalizeValue` output has clean mapping entries everywhere. -/
theorem normalizeValue_clean : ∀ v, objFieldsClean (normalizeValue v) = true
  | .null => rfl
  | .undefined => rfl
  | .bool _ => rfl
  | .num _ => rfl
  | .arr xs => by
      simp [normalizeValue, objFieldsClean]
      exact normalizeArr_clean xs
  | .obj fs => by
      simp [normalizeValue, objFieldsClean]
      exact normalizeObj_clean fs
  | .str s => by
      by_cases h : s = "" <;> simp [normalizeValue, h, objFieldsClean]

end

mutual

/-- `normalizeData` is idempotent. -/
theorem normalizeData_idem_aux : ∀ x, normalizeData (normalizeData x) = normalizeData x
  | .null => rfl
  | .undefined => rfl
  | .bool _ => rfl
  | .num _ => rfl
  | .str _ => rfl
  | .arr xs => by
      simp [normalizeData]
      exact normalizeArr_idem_aux xs
  | .obj fs => by
      simp [normalizeData]
      exact normalizeObj_idem_aux fs

/-- Elementwise idempotence for arrays. -/
theorem normalizeArr_idem_aux : ∀ xs, normalizeArr (normalizeArr xs) = normalizeArr xs
  | .nil => rfl
  | .cons x rest => by
      simp [normalizeArr]
      exact ⟨normalizeData_idem_aux x, normalizeArr_idem_aux rest⟩

/-- Entrywise idempotence for mappings. -/
theorem normalizeObj_idem_aux : ∀ fs, normalizeObj (normalizeObj fs) = normalizeObj fs
  | .nil => rfl
  | .cons _ v rest => by
      simp [normalizeObj]
      exact ⟨normalizeValue_idem_aux v, normalizeObj_idem_aux rest⟩

/-- The per-value dispatch is idempotent. -/
theorem normalizeValue_idem_aux : ∀ v, normalizeValue (normalizeValue v) = normalizeValue v
  | .null => rfl
  | .undefined => rfl
  | .bool _ => rfl
  | .num _ => rfl
  | .arr xs => by
      simp [normalizeValue]
      exact normalizeArr_idem_aux xs
  | .obj fs => by
      simp [normalizeValue]
      exact normalizeObj_idem_aux fs
  | .str s => by
      by_cases h : s = ""
      · simp [normalizeValue, h]
      · by_cases h2 : jsTrim s = "" <;>
          simp [normalizeValue, h, h2, jsTrim_idem]

end

/-- `normalizeData` maps over array elements. -/
theorem normalizeArr_toList : ∀ xs : JsonArr,
    (normalizeArr xs).toList = xs.toList.map normalizeData
  | .nil => rfl
  | .cons x rest => by
      simp [normalizeArr, JsonArr.toList, normalizeArr_toList rest]

/-- `normalizeData` preserves array length. -/
theorem arrLength_normalizeArr (xs : JsonArr) :
    arrLength (normalizeArr xs) = arrLength xs := by
  simp [arrLength, normalizeArr_toList]

/-- Each mapping entry survives normalization with its key, its value sent
through the per-value dispatch. -/
theorem mem_normalizeObj : ∀ (fs : JsonObj) (k : String) (v : Json),
    (k, v) ∈ fs.toPairs → (k, normalizeValue v) ∈ (normalizeObj fs).toPairs
  | .nil, k, v, h => by simp [JsonObj.toPairs] at h
  | .cons k2 v2 rest, k, v, h => by
      simp only [JsonObj.toPairs, List.mem_cons] at h
      rcases h with h | h
      · obtain ⟨rfl, rfl⟩ := Prod.mk.inj h
        simp [normalizeObj, JsonObj.toPairs]
      · simp only [normalizeObj, JsonObj.toPairs, List.mem_cons]
        exact Or.inr (mem_normalizeObj rest k v h)

/-- Normalizing a mapping yields a value that passes the element filter of
`validateData`. -/
theorem normalizeData_mapping_valid (x : Json) (h : isMapping x = true) :
    isInvalidItem (normalizeData x) = false := by
  cases x <;> simp [isMapping] at h <;> simp [normalizeData, isInvalidItem]

/-- An array of mappings normalizes to a list with no invalid element. -/
theorem filter_invalid_normalizeArr (xs : JsonArr)
    (h : ∀ x ∈ xs.toList, isMapping x = true) :
    (normalizeArr xs).toList.filter isInvalidItem = [] := by
  rw [normalizeArr_toList]
  refine List.filter_eq_nil.mpr ?_
  intro a ha
  obtain ⟨x, hx, rfl⟩ := List.mem_map.mp ha
  simp [normalizeData_mapping_valid x (h x hx)]

/-- `validateData` on an array succeeds exactly when no element fails the
`typeof`-object filter. -/
theorem validateData_ok_of_no_invalid (name : String) (xs : JsonArr)
    (h : xs.toList.filter isInvalidItem = []) :
    validateData name (Json.arr xs) = Except.ok true := by
  unfold validateData
  by_cases h0 : arrLength xs = 0
  · simp [h0]
  · simp [h0, h]

/-- `validateData` on an array with an offending element fails with the
message carrying the offender count. -/
theorem validateData_error_of_invalid (name : String) (xs : JsonArr)
    (h : 0 < (xs.toList.filter isInvalidItem).length) :
    validateData name (Json.arr xs) =
      Except.error (name ++ " contains " ++
        toString ((xs.toList.filter isInvalidItem).length) ++ " invalid items") := by
  unfold validateData
  have h0 : ¬ arrLength xs = 0 := by
    intro h0
    rw [arrLength, List.length_eq_zero] at h0
    rw [h0] at h
    simp at h
  simp [h0, h]

/-- When `validateData` returns normally, the returned flag is `true`. -/
theorem validateData_ok_val (name : String) (d : Json) (b : Bool)
    (h : validateData name d = Except.ok b) : b = true := by
  cases d <;> simp only [validateData] at h
  case arr xs => split_ifs at h <;> simp_all
  all_goals simp_all

/-- `syncSheet` reports success exactly when the fetch resolved, validation
(when enabled) passed, and the write went through: the `try`/`catch` at the
per-source boundary converts every stage failure into `success = false`. -/
theorem syncSheet_success_iff (opts : Options) (name : String) (run : SourceRun) :
    (syncSheet opts name run).success = true ↔
      (∃ d, fetchSheetData run.fetchResult = Except.ok d ∧
        (opts.validateData = true →
          validateData name (normalizeData d) = Except.ok true) ∧
        run.writeResult = Except.ok ()) := by
  unfold syncSheet
  rcases hf : fetchSheetData run.fetchResult with e | d
  · simp [hf]
  · rcases hv : opts.validateData with _ | _
    · rcases hw : run.writeResult with e2 | u
      · simp [hf, hv, hw]
      · cases u
        simp [hf, hv, hw]
    · rcases hval : validateData name (normalizeData d) with e2 | b
      · simp [hf, hv, hval]
      · have hb := validateData_ok_val name (normalizeData d) b hval
        subst hb
        rcases hw : run.writeResult with e2 | u
        · simp [hf, hv, hval, hw]
        · cases u
          simp [hf, hv, hval, hw]

/-- `main` syncs every configured source, in order. -/
theorem runAllSheets_eq_map (opts : Options) (runs : List (String × SourceRun)) :
    runAllSheets opts runs = runs.map (fun p => (p.1, syncSheet opts p.1 p.2)) := by
  induction runs with
  | nil => rfl
  | cons p rest ih =>
      rcases p with ⟨n, r⟩
      simp [runAllSheets, ih]

/-- One `SyncResult` per configured source. -/
theorem runAllSheets_length (opts : Options) (runs : List (String × SourceRun)) :
    (runAllSheets opts runs).length = runs.length := by
  rw [runAllSheets_eq_map, List.length_map]

/-- The exit decision: 0 exactly when every source succeeded. -/
theorem mainExitCode_eq (results : List (String × SyncResult)) :
    mainExitCode results =
      (if ∀ p ∈ results, p.2.success = true then 0 else 1) := by
  unfold mainExitCode totalFailed
  by_cases h : ∀ p ∈ results, p.2.success = true
  · have hnil : results.filter (fun p => !p.2.success) = [] := by
      refine List.filter_eq_nil.mpr ?_
      intro p hp
      simp [h p hp]
    rw [hnil, if_pos h]
    simp
  · push_neg at h
    obtain ⟨p, hp, hfail⟩ := h
    have hmem : p ∈ results.filter (fun p => !p.2.success) := by
      refine List.mem_filter.mpr ⟨hp, ?_⟩
      simp [Bool.not_eq_true] at hfail ⊢
      exact hfail
    have hpos : 0 < (results.filter (fun p => !p.2.success)).length :=
      List.length_pos.mpr (List.ne_nil_of_mem hmem)
    have hne : ¬ ∀ q ∈ results, q.2.success = true := by
      intro hall
      exact absurd (hall p hp) hfail
    rw [if_neg hne, if_pos hpos]

/-- A path never equals itself with the `.backup` suffix appended. -/
theorem path_ne_backup (path : String) : (path ++ ".backup" = path) = False := by
  simp only [eq_iff_iff, iff_false]
  intro h
  have hlen := congrArg String.length h
  rw [String.length_append] at hlen
  have h7 : (".backup" : String).length = 7 := rfl
  rw [h7] at hlen
  omega

/-- Symmetric form of `path_ne_backup`, matching the association-list lookup
direction. -/
theorem path_ne_backup_symm (path : String) : (path = path ++ ".backup") = False := by
  simp only [eq_iff_iff, iff_false]
  intro h
  exact (path_ne_backup path) ▸ h.symm

/-- A truthy value that the empty-array test accepts is literally `[]`. -/
theorem isEmptyArrayJ_eq_nil (raw : Json) (h : isEmptyArrayJ raw = true) :
    raw = Json.arr JsonArr.nil := by
  cases raw <;> simp [isEmptyArrayJ] at h ⊢
  case arr xs =>
    cases xs with
    | nil => rfl
    | cons y rest => simp [arrLength, JsonArr.toList] at h

/-- A truthy fetched body passes through `fetchSheetData` unchanged (an
empty array is replaced by `[]`, i.e. by itself). -/
theorem fetchSheetData_truthy (raw : Json) (h : jsFalsy raw = false) :
    fetchSheetData (Except.ok raw) = Except.ok raw := by
  unfold fetchSheetData
  by_cases he : isEmptyArrayJ raw = true
  · have hraw := isEmptyArrayJ_eq_nil raw he
    subst hraw
    simp
  · simp [h, he]

/-! Claims -/

/-- Claim C1: for every mapping passed to `normalizeData` whose value at some key
is a non-empty string, the normalized mapping holds the trimmed string at
that key, the result is never a native boolean, and the
boolean-looking-string branch of the dispatch chain is unreachable for every
value (dead code), because the generic `typeof value === 'string'` check
precedes it. -/
theorem string_fields_trimmed_never_bool (fs : JsonObj) (k s : String)
    (hmem : (k, Json.str s) ∈ fs.toPairs) (hne : s ≠ "") :
    normalizeData (Json.obj fs) = Json.obj (normalizeObj fs) ∧
    (k, Json.str (jsTrim s)) ∈ (normalizeObj fs).toPairs ∧
    (∀ b, normalizeValue (Json.str s) ≠ Json.bool b) ∧
    (∀ v, dispatchBranch v ≠ NormBranch.boolStringBranch) := by
  refine ⟨rfl, ?_, ?_, boolString_branch_dead_aux⟩
  · have h := mem_normalizeObj fs k (Json.str s) hmem
    rwa [normalizeValue_str s hne] at h
  · intro b
    rw [normalizeValue_str s hne]
    simp

/-- Witness for C1 at the mapping `{"a": " x "}`: the entry comes back as
the trimmed string `"x"`. -/
theorem string_fields_trimmed_never_bool_witness :
    (("a", Json.str " x ") ∈ (JsonObj.cons "a" (Json.str " x ") JsonObj.nil).toPairs) ∧
    (" x " : String) ≠ "" ∧
    (("a", Json.str "x") ∈
      (normalizeObj (JsonObj.cons "a" (Json.str " x ") JsonObj.nil)).toPairs) := by
  have hmem : ("a", Json.str " x ") ∈
      (JsonObj.cons "a" (Json.str " x ") JsonObj.nil).toPairs := by
    simp [JsonObj.toPairs]
  have hne : (" x " : String) ≠ "" := by decide
  exact ⟨hmem, hne,
    (string_fields_trimmed_never_bool (JsonObj.cons "a" (Json.str " x ") JsonObj.nil)
      "a" " x " hmem hne).2.1⟩

/-- Counterexample for C2: `normalizeData` returns the array
`[null, " a "]` unchanged — the output still contains `null` and an
untrimmed string, so the claimed invariant fails for this JSON value
(`normalizeData` only rewrites values sitting directly inside mappings;
top-level scalars and direct array elements pass through). -/
theorem normalize_invariant_cex :
    normalizeData (Json.arr (JsonArr.cons Json.null
        (JsonArr.cons (Json.str " a ") JsonArr.nil))) =
      Json.arr (JsonArr.cons Json.null (JsonArr.cons (Json.str " a ") JsonArr.nil)) ∧
    noNils (Json.arr (JsonArr.cons Json.null
        (JsonArr.cons (Json.str " a ") JsonArr.nil))) = false ∧
    allTrimmed (Json.arr (JsonArr.cons Json.null
        (JsonArr.cons (Json.str " a ") JsonArr.nil))) = false :=
  ⟨rfl, rfl, rfl⟩

/-- Claim C2 as amended: for every JSON value `x`, every mapping occurring anywhere
in `normalizeData x` has entry values that are neither `null` nor
`undefined` and whose strings carry no leading or trailing whitespace;
values outside mapping entries are not constrained. -/
theorem normalize_mapping_fields_clean (x : Json) :
    objFieldsClean (normalizeData x) = true :=
  normalizeData_clean x

/-- Counterexample for C3: the element `[]` of the array `[[]]` is not a
mapping, yet `validateData` succeeds, because the source's element filter
(`typeof item !== 'object' || item === null`) lets arrays through — JS
`typeof` calls an array `'object'`. -/
theorem validate_accepts_array_element_cex :
    isMapping (Json.arr JsonArr.nil) = false ∧
    validateData "events"
      (Json.arr (JsonArr.cons (Json.arr JsonArr.nil) JsonArr.nil)) =
      Except.ok true :=
  ⟨rfl, rfl⟩

/-- Claim C3 as amended: `validateData` on an array fails — with the offender count
in the message — exactly when some element is `null` or of non-object JS
type (scalar); elements that are mappings or arrays both pass, and an
array whose elements all pass (in particular the empty array) validates
successfully. -/
theorem validate_shape_amended (name : String) (xs : JsonArr) :
    ((∃ x ∈ xs.toList, isInvalidItem x = true) →
      validateData name (Json.arr xs) =
        Except.error (name ++ " contains " ++
          toString ((xs.toList.filter isInvalidItem).length) ++ " invalid items")) ∧
    ((∀ x ∈ xs.toList, isInvalidItem x = false) →
      validateData name (Json.arr xs) = Except.ok true) := by
  constructor
  · rintro ⟨x, hx, hinv⟩
    refine validateData_error_of_invalid name xs ?_
    have hmem : x ∈ xs.toList.filter isInvalidItem :=
      List.mem_filter.mpr ⟨hx, hinv⟩
    exact List.length_pos.mpr (List.ne_nil_of_mem hmem)
  · intro h
    refine validateData_ok_of_no_invalid name xs ?_
    refine List.filter_eq_nil.mpr ?_
    intro a ha
    simp [h a ha]

/-- Witness for C3 amended: `[null]` fails with count 1 in the message,
`[{}]` validates. -/
theorem validate_shape_amended_witness :
    (∃ x ∈ (JsonArr.cons Json.null JsonArr.nil).toList, isInvalidItem x = true) ∧
    validateData "board" (Json.arr (JsonArr.cons Json.null JsonArr.nil)) =
      Except.error "board contains 1 invalid items" ∧
    (∀ x ∈ (JsonArr.cons (Json.obj JsonObj.nil) JsonArr.nil).toList,
      isInvalidItem x = false) ∧
    validateData "board"
      (Json.arr (JsonArr.cons (Json.obj JsonObj.nil) JsonArr.nil)) =
      Except.ok true := by
  have h1 : ∃ x ∈ (JsonArr.cons Json.null JsonArr.nil).toList,
      isInvalidItem x = true :=
    ⟨Json.null, by simp [JsonArr.toList], rfl⟩
  have h2 : ∀ x ∈ (JsonArr.cons (Json.obj JsonObj.nil) JsonArr.nil).toList,
      isInvalidItem x = false := by
    intro x hx
    simp [JsonArr.toList] at hx
    rw [hx]
    rfl
  exact ⟨h1, (validate_shape_amended "board" (JsonArr.cons Json.null JsonArr.nil)).1 h1,
    h2, (validate_shape_amended "board"
      (JsonArr.cons (Json.obj JsonObj.nil) JsonArr.nil)).2 h2⟩

/-- Claim C4: `normalizeData` is idempotent — normalizing an already-normalized
value changes nothing, for every JSON value. -/
theorem normalize_idempotent (x : Json) :
    normalizeData (normalizeData x) = normalizeData x :=
  normalizeData_idem_aux x

/-- Claim C5: for every JSON array whose elements are all mappings, normalization
followed by validation succeeds, and the record count reported by
`syncSheet` (the `count` expression of source line 229, here `recordCount`)
equals the input array length: normalization preserves array length and
element mapping-ness. -/
theorem normalize_validate_count (name : String) (xs : JsonArr)
    (h : ∀ x ∈ xs.toList, isMapping x = true) :
    validateData name (normalizeData (Json.arr xs)) = Except.ok true ∧
    recordCount (normalizeData (Json.arr xs)) = arrLength xs := by
  constructor
  · show validateData name (Json.arr (normalizeArr xs)) = Except.ok true
    exact validateData_ok_of_no_invalid name _ (filter_invalid_normalizeArr xs h)
  · show recordCount (Json.arr (normalizeArr xs)) = arrLength xs
    simp [recordCount, arrLength_normalizeArr]

/-- Witness for C5 at the one-record table `[{"name": " Jane "}]`. -/
theorem normalize_validate_count_witness :
    (∀ x ∈ (JsonArr.cons (Json.obj (JsonObj.cons "name" (Json.str " Jane ")
        JsonObj.nil)) JsonArr.nil).toList, isMapping x = true) ∧
    validateData "board" (normalizeData (Json.arr (JsonArr.cons
        (Json.obj (JsonObj.cons "name" (Json.str " Jane ") JsonObj.nil))
        JsonArr.nil))) = Except.ok true ∧
    recordCount (normalizeData (Json.arr (JsonArr.cons
        (Json.obj (JsonObj.cons "name" (Json.str " Jane ") JsonObj.nil))
        JsonArr.nil))) = 1 := by
  have h : ∀ x ∈ (JsonArr.cons (Json.obj (JsonObj.cons "name" (Json.str " Jane ")
      JsonObj.nil)) JsonArr.nil).toList, isMapping x = true := by
    intro x hx
    simp [JsonArr.toList] at hx
    rw [hx]
    rfl
  have happ := normalize_validate_count "board" (JsonArr.cons
    (Json.obj (JsonObj.cons "name" (Json.str " Jane ") JsonObj.nil)) JsonArr.nil) h
  exact ⟨h, happ.1, happ.2⟩

/-- Claim C6: naming an unknown source on the command line does not reach the
`Sheet "..." not found in config` (`ConfigError`) branch: the script builds
the one-key object `{ [targetSheet]: undefined }`, which passes the
emptiness check, and then crashes with a `TypeError` while reading
`sheetConfig.jsonUrl` in the URL pre-flight loop.  The process still exits
with code 1 (through the top-level `catch`) and no fetch happens, but no
`ConfigError` reporting the unknown name is produced. -/
theorem unknown_sheet_type_error_crash :
    mainPreflight
      [("board", { jsonUrl := "https://example.com/board.json",
                   outputPath := "data/board/members.yaml",
                   description := "Board members data" })]
      (some "events") = PreflightOutcome.typeErrorCrash "events" ∧
    PreflightOutcome.typeErrorCrash "events" ≠ PreflightOutcome.sheetNotFoundExit :=
  ⟨rfl, by decide⟩

/-- Claim C7: the orchestrator produces one result per source (none is skipped,
in order); a source's result is successful exactly when its fetch,
conditional validation and write all passed — every stage failure is caught
at the per-source boundary and becomes `success = false`; and the process
exit code is 0 when every source succeeded and 1 otherwise. -/
theorem per_source_isolation_and_exit (opts : Options)
    (runs : List (String × SourceRun)) :
    (runAllSheets opts runs).length = runs.length ∧
    runAllSheets opts runs = runs.map (fun p => (p.1, syncSheet opts p.1 p.2)) ∧
    (∀ name run, (syncSheet opts name run).success = true ↔
      (∃ d, fetchSheetData run.fetchResult = Except.ok d ∧
        (opts.validateData = true →
          validateData name (normalizeData d) = Except.ok true) ∧
        run.writeResult = Except.ok ())) ∧
    mainExitCode (runAllSheets opts runs) =
      (if ∀ p ∈ runAllSheets opts runs, p.2.success = true then 0 else 1) :=
  ⟨runAllSheets_length opts runs, runAllSheets_eq_map opts runs,
   fun name run => syncSheet_success_iff opts name run,
   mainExitCode_eq (runAllSheets opts runs)⟩

/-- Witness for C7: a succeeding source followed by a failing one still
yields exit code 1. -/
theorem per_source_isolation_and_exit_witness :
    mainExitCode (runAllSheets ⟨false, true⟩
      [("board", ⟨Except.ok (Json.arr JsonArr.nil), Except.ok ()⟩),
       ("events", ⟨Except.error "HTTP 404: Not Found", Except.ok ()⟩)]) = 1 := by
  rw [(per_source_isolation_and_exit ⟨false, true⟩
    [("board", ⟨Except.ok (Json.arr JsonArr.nil), Except.ok ()⟩),
     ("events", ⟨Except.error "HTTP 404: Not Found", Except.ok ()⟩)]).2.2.2]
  decide

/-- Claim C8: with `backupBeforeSync` enabled and a file already present at the
output path, `writeYamlFile` leaves `<path>.backup` holding exactly the
pre-write content of `<path>`, and `<path>` holding the new serialized
document. -/
theorem backup_before_overwrite (fs : FS) (data : Json) (path prev : String)
    (hprev : fs.readFile path = some prev) :
    (writeYamlFile true fs data path).readFile (path ++ ".backup") = some prev ∧
    (writeYamlFile true fs data path).existsFile (path ++ ".backup") = true ∧
    (writeYamlFile true fs data path).readFile path = some (yamlStringify data) := by
  have hex : fs.existsFile path = true := by simp [FS.existsFile, hprev]
  have hcopy : fs.copyFile path (path ++ ".backup") =
      fs.writeFile (path ++ ".backup") prev := by
    simp [FS.copyFile, hprev]
  have hw : writeYamlFile true fs data path =
      (fs.writeFile (path ++ ".backup") prev).writeFile path (yamlStringify data) := by
    simp [writeYamlFile, hex, hcopy]
  rw [hw]
  refine ⟨?_, ?_, ?_⟩
  · simp [FS.writeFile, FS.readFile, lookupFile, path_ne_backup_symm]
  · simp [FS.existsFile, FS.writeFile, FS.readFile, lookupFile, path_ne_backup_symm]
  · simp [FS.writeFile, FS.readFile, lookupFile]

/-- Witness for C8 on a one-file filesystem. -/
theorem backup_before_overwrite_witness :
    (FS.mk [("data/board/members.yaml", "old")]).readFile
      "data/board/members.yaml" = some "old" ∧
    (writeYamlFile true (FS.mk [("data/board/members.yaml", "old")]) Json.null
      "data/board/members.yaml").readFile "data/board/members.yaml.backup" =
      some "old" := by
  have hprev : (FS.mk [("data/board/members.yaml", "old")]).readFile
      "data/board/members.yaml" = some "old" := rfl
  exact ⟨hprev,
    (backup_before_overwrite (FS.mk [("data/board/members.yaml", "old")])
      Json.null "data/board/members.yaml" "old" hprev).1⟩

/-- Claim C9: a fetched body that is falsy (e.g. `null`) or an empty array is
replaced by `[]` in `fetchSheetData`, so the source completes with
`success = true` and record count 0 — validation (enabled or not) accepts
the empty table instead of raising a shape error. -/
theorem falsy_body_syncs_empty (opts : Options) (name : String) (raw : Json)
    (h : jsFalsy raw = true ∨ isEmptyArrayJ raw = true) :
    syncSheet opts name ⟨Except.ok raw, Except.ok ()⟩ =
      { success := true, count := 0, error := none } := by
  have hfetch : fetchSheetData (Except.ok raw) = Except.ok (Json.arr JsonArr.nil) := by
    rcases h with h | h
    · simp [fetchSheetData, h]
    · simp [fetchSheetData, h]
  rcases hv : opts.validateData with _ | _ <;>
    simp [syncSheet, hfetch, hv, normalizeData, normalizeArr, validateData,
      arrLength, JsonArr.toList, recordCount]

/-- Witness for C9 at the body `null` with validation on. -/
theorem falsy_body_syncs_empty_witness :
    (jsFalsy Json.null = true ∨ isEmptyArrayJ Json.null = true) ∧
    syncSheet ⟨true, true⟩ "events" ⟨Except.ok Json.null, Except.ok ()⟩ =
      { success := true, count := 0, error := none } :=
  ⟨Or.inl rfl,
   falsy_body_syncs_empty ⟨true, true⟩ "events" Json.null (Or.inl rfl)⟩

/-- Counterexample for C10: with validation disabled, the fetched body `false`
— a non-array — is reported as a success with count 0, not 1: the falsy
body is replaced by `[]` in `fetchSheetData` before the count is taken. -/
theorem skip_validation_count_cex :
    isArrayJ (Json.bool false) = false ∧
    syncSheet ⟨false, false⟩ "staff"
      ⟨Except.ok (Json.bool false), Except.ok ()⟩ =
      { success := true, count := 0, error := none } ∧
    (0 : Nat) ≠ 1 :=
  ⟨rfl, rfl, by decide⟩

/-- Claim C10 as amended: when the `validateData` option is off, validation is
skipped and every truthy fetched body — of any shape — is normalized,
written and reported as a success; the count is 1 for truthy non-array
values and the array length for arrays.  (Falsy bodies are replaced by `[]`
and counted 0 — see C9.) -/
theorem skip_validation_amended (b : Bool) (name : String) (raw : Json)
    (h : jsFalsy raw = false) :
    syncSheet ⟨b, false⟩ name ⟨Except.ok raw, Except.ok ()⟩ =
      { success := true, count := recordCount (normalizeData raw), error := none } ∧
    (isArrayJ raw = false → recordCount (normalizeData raw) = 1) ∧
    (∀ xs, raw = Json.arr xs → recordCount (normalizeData raw) = arrLength xs) := by
  refine ⟨?_, ?_, ?_⟩
  · simp [syncSheet, fetchSheetData_truthy raw h]
  · intro ha
    cases raw <;> simp [isArrayJ] at ha ⊢ <;> rfl
  · intro xs hxs
    subst hxs
    show recordCount (Json.arr (normalizeArr xs)) = arrLength xs
    simp [recordCount, arrLength_normalizeArr]

/-- Witness for C10 amended at the truthy non-array body `{}`. -/
theorem skip_validation_amended_witness :
    jsFalsy (Json.obj JsonObj.nil) = false ∧
    syncSheet ⟨true, false⟩ "staff"
      ⟨Except.ok (Json.obj JsonObj.nil), Except.ok ()⟩ =
      { success := true, count := 1, error := none } :=
  ⟨rfl, (skip_validation_amended true "staff" (Json.obj JsonObj.nil) rfl).1⟩

end SyncData
